import Mathlib

/-!
# Verification of the Snake-3D core simulation

Shallow embedding of the game-state simulation of the Snake-3D repository
(`src/js/Snake.js`, `src/js/Food.js`, `src/js/main.js`) and proofs of the
frozen claims about it.

Modelling conventions:
* JS numbers are modelled as real numbers (`ℝ`); `THREE.Vector3` becomes the
  `Vec3` structure below with the componentwise operations the game uses
  (`add`, `sub`, `multiplyScalar`, `dot`, `length`, `distanceTo`,
  `normalize`).
* `Math.random()` is modelled as an explicit stream `g : ℕ → ℝ` of draws
  together with a cursor: every function that draws randomness takes the
  stream and the cursor position and returns its result paired with the new
  cursor position.  Theorems hypothesise `0 ≤ g n < 1` where needed.
* Rendering state (meshes, materials, scene, rotations, eyes, tween
  animations, sounds, DOM) is out of scope, exactly as in the spec; only the
  simulation fields are kept.  `this.head` exists iff the body list is
  nonempty (the head is `body[0]` from `createHead` on), and `Food`'s
  `this.mesh` always exists once the constructor ran, so the `!this.mesh`
  part of guards is dropped.
-/

namespace Snake3D

open scoped Classical

noncomputable section

/-- `THREE.Vector3`: real-valued 3D vector. -/
structure Vec3 where
  x : ℝ
  y : ℝ
  z : ℝ

namespace Vec3

/-- `new THREE.Vector3()` (defaults to the origin). -/
def zero : Vec3 := ⟨0, 0, 0⟩

/-- `a.add(b)` (value semantics). -/
def add (a b : Vec3) : Vec3 := ⟨a.x + b.x, a.y + b.y, a.z + b.z⟩

/-- `subVectors(a, b)` / `a.sub(b)`. -/
def sub (a b : Vec3) : Vec3 := ⟨a.x - b.x, a.y - b.y, a.z - b.z⟩

/-- `v.multiplyScalar(c)`. -/
def smul (c : ℝ) (v : Vec3) : Vec3 := ⟨c * v.x, c * v.y, c * v.z⟩

/-- `a.dot(b)`. -/
def dot (a b : Vec3) : ℝ := a.x * b.x + a.y * b.y + a.z * b.z

/-- `v.lengthSq()`. -/
def lengthSq (v : Vec3) : ℝ := v.x * v.x + v.y * v.y + v.z * v.z

/-- `v.length()`. -/
def length (v : Vec3) : ℝ := Real.sqrt v.lengthSq

/-- `a.distanceTo(b)`. -/
def distanceTo (a b : Vec3) : ℝ := (a.sub b).length

/-- `v.normalize()`, which in three.js is `divideScalar(length || 1)`:
a zero-length vector is divided by `1` and thus left unchanged. -/
def normalize (v : Vec3) : Vec3 :=
  if v.length = 0 then v else smul v.length⁻¹ v

@[simp] theorem add_def (a b : Vec3) :
    add a b = ⟨a.x + b.x, a.y + b.y, a.z + b.z⟩ := rfl

@[simp] theorem sub_def (a b : Vec3) :
    sub a b = ⟨a.x - b.x, a.y - b.y, a.z - b.z⟩ := rfl

@[simp] theorem smul_def (c : ℝ) (v : Vec3) :
    smul c v = ⟨c * v.x, c * v.y, c * v.z⟩ := rfl

theorem lengthSq_nonneg (v : Vec3) : 0 ≤ v.lengthSq := by
  unfold lengthSq; nlinarith [sq_nonneg v.x, sq_nonneg v.y, sq_nonneg v.z]

theorem length_nonneg (v : Vec3) : 0 ≤ v.length := Real.sqrt_nonneg _

/-- `distanceTo` compared against a nonnegative constant is the same as the
squared distance compared against the squared constant. -/
theorem distanceTo_lt_iff (a b : Vec3) (c : ℝ) (hc : 0 ≤ c) :
    distanceTo a b < c ↔ lengthSq (sub a b) < c * c := by
  unfold distanceTo length
  rw [show c * c = c ^ 2 by ring]
  constructor
  · intro h
    have h0 : 0 ≤ lengthSq (sub a b) := lengthSq_nonneg _
    calc lengthSq (sub a b) = Real.sqrt (lengthSq (sub a b)) ^ 2 :=
          (Real.sq_sqrt h0).symm
      _ < c ^ 2 := by
          have hnn : 0 ≤ Real.sqrt (lengthSq (sub a b)) := Real.sqrt_nonneg _
          nlinarith
  · intro h
    have := Real.sqrt_lt_sqrt (lengthSq_nonneg (sub a b)) h
    rwa [Real.sqrt_sq hc] at this

end Vec3

/-! ## The snake state machine (`src/js/Snake.js`)

Only the simulation fields are modelled: `body` keeps the ordered list of
segment positions (index 0 is the head, as `createHead` pushes the head
group first and `update` moves `this.head.position` which is
`body[0].position`). -/

structure Snake where
  body : List Vec3
  direction : Vec3
  nextDirection : Vec3
  speed : ℝ
  growPending : ℕ
  isInitialized : Bool

namespace Snake

/-- The guard `!this.isInitialized || !this.head` used by the public
methods: `this.head` is unset exactly when `createHead` has not run, i.e.
when the body list is empty. -/
def notReady (s : Snake) : Prop := s.isInitialized = false ∨ s.body = []

/-- `addBodyPart()`: append one segment.  With a single segment (the head)
the new part sits behind the head opposite the movement direction; with two
or more, it is offset from the last segment by `-1.2` times the unit vector
from the second-to-last toward the last segment.  (The `!this.bodyMaterial`
guard is rendering plumbing: the material exists whenever textures resolved,
which is before any modelled call.) -/
def addBodyPart (s : Snake) : Snake :=
  match s.body.getLast? with
  | none => s
  | some lastPart =>
    let newPos :=
      if s.body.length = 1 then
        lastPart.add (Vec3.smul (-1.2) s.direction)
      else
        let secondLast := s.body.getD (s.body.length - 2) Vec3.zero
        let dir := Vec3.normalize (lastPart.sub secondLast)
        lastPart.add (Vec3.smul (-1.2) dir)
    { s with body := s.body ++ [newPos] }

/-- `update()`: commit the pending direction, advance the head by
`direction * speed`, shift every trailing segment to the previous position
of the segment ahead of it, then consume one unit of pending growth.
(`updateHeadRotation` / `updateEyeDirection` only touch rendering state.) -/
def update (s : Snake) : Snake :=
  if s.notReady then s
  else
    match s.body with
    | [] => s
    | h :: rest =>
      let dir := s.nextDirection
      let newHead := h.add (Vec3.smul s.speed dir)
      let moved : Snake :=
        { s with direction := dir, body := newHead :: (h :: rest).dropLast }
      if 0 < s.growPending then
        { addBodyPart moved with growPending := s.growPending - 1 }
      else moved

/-- `changeDirection(newDirection)`: reject a request whose dot product with
the current direction is below `-0.8`; otherwise normalize it and store it
as the pending direction. -/
def changeDirection (s : Snake) (newDirection : Vec3) : Snake :=
  if s.notReady then s
  else if Vec3.dot newDirection s.direction < -0.8 then s
  else { s with nextDirection := newDirection.normalize }

/-- `grow()`. -/
def grow (s : Snake) : Snake :=
  if s.isInitialized then { s with growPending := s.growPending + 1 } else s

/-- `checkSelfCollision()`: head within `0.8` of a body part of index at
least 3. -/
def checkSelfCollision (s : Snake) : Prop :=
  if s.notReady then False
  else ∃ i, 3 ≤ i ∧ i < s.body.length ∧
    Vec3.distanceTo (s.body.getD 0 Vec3.zero) (s.body.getD i Vec3.zero) < 0.8

/-- `checkWallCollision(gridSize)`. -/
def checkWallCollision (s : Snake) (gridSize : ℝ) : Prop :=
  if s.notReady then False
  else
    let halfGrid := gridSize / 2
    let pos := s.body.getD 0 Vec3.zero
    let margin : ℝ := 0.6
    pos.x ≤ -halfGrid + margin ∨ pos.x ≥ halfGrid - margin ∨
    pos.y ≤ -margin ∨ pos.y ≥ gridSize - margin ∨
    pos.z ≤ -halfGrid + margin ∨ pos.z ≥ halfGrid - margin

/-- `getHeadPosition()`: the fixed spawn point before initialization. -/
def getHeadPosition (s : Snake) : Vec3 :=
  if s.notReady then ⟨0, 5, 0⟩ else s.body.getD 0 Vec3.zero

end Snake

/-- The six axis-aligned unit direction vectors the game feeds to
`changeDirection` from its input handlers. -/
def isAxisUnit (d : Vec3) : Prop :=
  d = ⟨1, 0, 0⟩ ∨ d = ⟨-1, 0, 0⟩ ∨ d = ⟨0, 1, 0⟩ ∨ d = ⟨0, -1, 0⟩ ∨
  d = ⟨0, 0, 1⟩ ∨ d = ⟨0, 0, -1⟩

/-! ## The food placement engine (`src/js/Food.js`)

Randomness: each generator takes the draw stream `g` and a cursor `k` and
returns its position paired with the advanced cursor, consuming exactly the
`Math.random()` calls the JS code makes, in evaluation order. -/

/-- The bounds `respawn` computes from `gridSize` (margin 3; Y bounds are
origin-at-floor: `[3, gridSize - 3]`). -/
structure Bounds where
  minX : ℝ
  maxX : ℝ
  minY : ℝ
  maxY : ℝ
  minZ : ℝ
  maxZ : ℝ

/-- Lines 70–79 of `Food.respawn`. -/
def computeBounds (gridSize : ℝ) : Bounds :=
  let halfGrid := gridSize / 2
  let margin : ℝ := 3
  { minX := -halfGrid + margin
    maxX := halfGrid - margin
    minY := 3
    maxY := gridSize - 3
    minZ := -halfGrid + margin
    maxZ := halfGrid - margin }

/-- `getWeightedRandomZone([0.3, 0.25, 0.25, 0.2])`, the accumulation loop
unrolled at the fixed weights: cumulative sums 0.3, 0.55, 0.8, 1.0, with the
last zone as fallback. -/
def getWeightedRandomZone (r : ℝ) : ℕ :=
  if r ≤ 0.3 then 0
  else if r ≤ 0.55 then 1
  else if r ≤ 0.8 then 2
  else if r ≤ 1 then 3
  else 3

/-- `minX + Math.random() * (maxX - minX)`: one uniform draw in an interval. -/
def uniformIn (lo hi : ℝ) (r : ℝ) : ℝ := lo + r * (hi - lo)

/-- `generateCenterPosition`: ignores the bounds arguments and uses
`this.gridSize` (already set to the `respawn` argument). -/
def generateCenterPosition (gridSize : ℝ) (g : ℕ → ℝ) (k : ℕ) : Vec3 × ℕ :=
  let centerSize := min 10 (gridSize * 0.5)
  let centerMinX := -centerSize / 2
  let centerMaxX := centerSize / 2
  let centerMinY := gridSize * 0.3
  let centerMaxY := gridSize * 0.7
  let centerMinZ := -centerSize / 2
  let centerMaxZ := centerSize / 2
  (⟨uniformIn centerMinX centerMaxX (g k),
    uniformIn centerMinY centerMaxY (g (k + 1)),
    uniformIn centerMinZ centerMaxZ (g (k + 2))⟩, k + 3)

/-- The 12-entry `corners` array of `generateCornerPosition`. -/
def cornerList (b : Bounds) : List Vec3 :=
  [⟨b.minX, b.minY + 1, b.minZ⟩,
   ⟨b.minX, b.minY + 1, b.maxZ⟩,
   ⟨b.maxX, b.minY + 1, b.minZ⟩,
   ⟨b.maxX, b.minY + 1, b.maxZ⟩,
   ⟨b.minX, b.maxY - 1, b.minZ⟩,
   ⟨b.minX, b.maxY - 1, b.maxZ⟩,
   ⟨b.maxX, b.maxY - 1, b.minZ⟩,
   ⟨b.maxX, b.maxY - 1, b.maxZ⟩,
   ⟨b.minX, (b.minY + b.maxY) / 2, b.minZ⟩,
   ⟨b.minX, (b.minY + b.maxY) / 2, b.maxZ⟩,
   ⟨b.maxX, (b.minY + b.maxY) / 2, b.minZ⟩,
   ⟨b.maxX, (b.minY + b.maxY) / 2, b.maxZ⟩]

/-- `generateCornerPosition`: pick one of the 12 corners, then jitter each
axis by `(Math.random() - 0.5) * 1.5`. -/
def generateCornerPosition (b : Bounds) (g : ℕ → ℝ) (k : ℕ) : Vec3 × ℕ :=
  let corners := cornerList b
  let c := corners.getD (Int.floor (g k * 12)).toNat Vec3.zero
  let offset : ℝ := 1.5
  (⟨c.x + (g (k + 1) - 0.5) * offset,
    c.y + (g (k + 2) - 0.5) * offset,
    c.z + (g (k + 3) - 0.5) * offset⟩, k + 4)

/-- `generateEdgePosition`: the edge index and the height-tier draw are both
always consumed (in that order), then the per-case uniform draws; the
`switch (edge)` is rendered as a chain of equality tests with case 5 as the
`default`. -/
def generateEdgePosition (b : Bounds) (g : ℕ → ℝ) (k : ℕ) : Vec3 × ℕ :=
  let edge := (Int.floor (g k * 6)).toNat
  let heightTiers : List ℝ := [b.minY + 2, (b.minY + b.maxY) / 2, b.maxY - 2]
  let randomHeight := heightTiers.getD (Int.floor (g (k + 1) * 3)).toNat 0
  if edge = 0 then
    (⟨uniformIn b.minX b.maxX (g (k + 2)), b.minY + 1.5,
      uniformIn b.minZ b.maxZ (g (k + 3))⟩, k + 4)
  else if edge = 1 then
    (⟨uniformIn b.minX b.maxX (g (k + 2)), b.maxY - 1.5,
      uniformIn b.minZ b.maxZ (g (k + 3))⟩, k + 4)
  else if edge = 2 then
    (⟨b.minX + 1.5, randomHeight, uniformIn b.minZ b.maxZ (g (k + 2))⟩, k + 3)
  else if edge = 3 then
    (⟨b.maxX - 1.5, randomHeight, uniformIn b.minZ b.maxZ (g (k + 2))⟩, k + 3)
  else if edge = 4 then
    (⟨uniformIn b.minX b.maxX (g (k + 2)), randomHeight, b.minZ + 1.5⟩, k + 3)
  else
    (⟨uniformIn b.minX b.maxX (g (k + 2)), randomHeight, b.maxZ - 1.5⟩, k + 3)

/-- `generateRandomPosition`: independent uniform draws within the bounds. -/
def generateRandomPosition (b : Bounds) (g : ℕ → ℝ) (k : ℕ) : Vec3 × ℕ :=
  (⟨uniformIn b.minX b.maxX (g k),
    uniformIn b.minY b.maxY (g (k + 1)),
    uniformIn b.minZ b.maxZ (g (k + 2))⟩, k + 3)

/-- `generateFallbackPosition`: bounds center jittered per axis by
`(Math.random() - 0.5) * 4`. -/
def generateFallbackPosition (b : Bounds) (g : ℕ → ℝ) (k : ℕ) : Vec3 × ℕ :=
  (⟨(b.minX + b.maxX) / 2 + (g k - 0.5) * 4,
    (b.minY + b.maxY) / 2 + (g (k + 1) - 0.5) * 4,
    (b.minZ + b.maxZ) / 2 + (g (k + 2) - 0.5) * 4⟩, k + 3)

/-- `isTooCloseToLastPosition`: false when there is no last spawn position,
else distance below the minimum distance 4. -/
def isTooCloseToLastPosition (last : Option Vec3) (p : Vec3) : Prop :=
  match last with
  | none => False
  | some lp => Vec3.distanceTo p lp < 4

/-- The `switch (spawnZone)` dispatch of `respawn` (cases 3 and `default`
both draw uniformly). -/
def genZone (zone : ℕ) (gridSize : ℝ) (b : Bounds) (g : ℕ → ℝ) (k : ℕ) :
    Vec3 × ℕ :=
  if zone = 0 then generateCenterPosition gridSize g k
  else if zone = 1 then generateCornerPosition b g k
  else if zone = 2 then generateEdgePosition b g k
  else generateRandomPosition b g k

/-- The `do … while` retry loop of `respawn` with `maxAttempts = 10`,
written with explicit fuel (the loop body runs at most `maxAttempts` times:
`attempts` is incremented each pass and both the break and the loop
condition cap it).  Candidate number `attempts + 1` is generated; if that
brings `attempts` to the cap the candidate is discarded for the fallback
position; otherwise a candidate too close to the last spawn position is
retried and any other candidate is returned. -/
def respawnLoop (fuel : ℕ) (zone : ℕ) (gridSize : ℝ) (b : Bounds)
    (last : Option Vec3) (g : ℕ → ℝ) (k attempts : ℕ) : Vec3 × ℕ :=
  match fuel with
  | 0 => generateFallbackPosition b g k
  | fuel' + 1 =>
    let res := genZone zone gridSize b g k
    if 10 ≤ attempts + 1 then generateFallbackPosition b g res.2
    else if isTooCloseToLastPosition last res.1 then
      respawnLoop fuel' zone gridSize b last g res.2 (attempts + 1)
    else res

/-- The food state (`mesh` and the spawn animation are rendering-only;
`mesh.position` mirrors `position`). -/
structure Food where
  position : Vec3
  gridSize : ℝ
  isInitialized : Bool
  lastSpawnPosition : Option Vec3

namespace Food

/-- `respawn(gridSize)`: compute bounds, draw the spawn zone, run the
retry loop, then commit — the committed position is stored into `position`
and a clone of it into `lastSpawnPosition`.  (The `!this.mesh` part of the
guard is dropped: the mesh exists from the constructor on.) -/
def respawn (f : Food) (gridSize : ℝ) (g : ℕ → ℝ) : Food :=
  if f.isInitialized = false then f
  else
    let b := computeBounds gridSize
    let zone := getWeightedRandomZone (g 0)
    let res := respawnLoop 10 zone gridSize b f.lastSpawnPosition g 1 0
    { f with gridSize := gridSize
             position := res.1
             lastSpawnPosition := some res.1 }

/-- `getPosition()`. -/
def getPosition (f : Food) : Vec3 :=
  if f.isInitialized = false then ⟨0, 5, 0⟩ else f.position

end Food

/-! ## The game loop controller (`src/js/main.js`) -/

/-- The controller state relevant to the food-collision check. -/
structure Game where
  snake : Snake
  food : Food
  score : ℕ
  gridSize : ℝ
  moveDelay : ℝ

namespace Game

/-- `checkFoodCollision()`: on a head-to-food distance below 1.5, grow the
snake, respawn the food, add 10 to the score and speed up
(`moveDelay = max(0.03, moveDelay * 0.95)`); otherwise do nothing.
(The guard `!this.snake.head` is the body-empty test, and `!this.food.mesh`
never fires once the food constructor ran; sound and DOM effects are out of
scope.) -/
def checkFoodCollision (gm : Game) (g : ℕ → ℝ) : Game :=
  if gm.snake.body = [] then gm
  else
    let headPos := gm.snake.getHeadPosition
    let foodPos := gm.food.getPosition
    if Vec3.distanceTo headPos foodPos < 1.5 then
      { gm with snake := gm.snake.grow
                food := gm.food.respawn gm.gridSize g
                score := gm.score + 10
                moveDelay := max 0.03 (gm.moveDelay * 0.95) }
    else gm

end Game

/-- The box `[minX,maxX] × [minY,maxY] × [minZ,maxZ]` of the claimed
spawn-position invariant. -/
def inBounds (b : Bounds) (v : Vec3) : Prop :=
  b.minX ≤ v.x ∧ v.x ≤ b.maxX ∧ b.minY ≤ v.y ∧ v.y ≤ b.maxY ∧
  b.minZ ≤ v.z ∧ v.z ≤ b.maxZ

/-- The bounds box inflated by the corner-zone jitter half-width 0.75 on
the X and Z axes (the Y coordinate needs no slack). -/
def inBoundsWide (b : Bounds) (v : Vec3) : Prop :=
  b.minX - 0.75 ≤ v.x ∧ v.x ≤ b.maxX + 0.75 ∧ b.minY ≤ v.y ∧ v.y ≤ b.maxY ∧
  b.minZ - 0.75 ≤ v.z ∧ v.z ≤ b.maxZ + 0.75

/-! ## Helper lemmas -/

namespace Snake

theorem not_notReady {s : Snake} (hinit : s.isInitialized = true)
    (hbody : s.body ≠ []) : ¬ s.notReady := by
  simp [notReady, hinit, hbody]

theorem addBodyPart_direction (s : Snake) :
    (s.addBodyPart).direction = s.direction := by
  unfold addBodyPart; cases s.body.getLast? <;> simp

theorem addBodyPart_nextDirection (s : Snake) :
    (s.addBodyPart).nextDirection = s.nextDirection := by
  unfold addBodyPart; cases s.body.getLast? <;> simp

theorem addBodyPart_isInitialized (s : Snake) :
    (s.addBodyPart).isInitialized = s.isInitialized := by
  unfold addBodyPart; cases s.body.getLast? <;> simp

theorem addBodyPart_body (s : Snake) (hb : s.body ≠ []) :
    ∃ p, (s.addBodyPart).body = s.body ++ [p] := by
  unfold addBodyPart
  cases h : s.body.getLast? with
  | none => exact absurd (List.getLast?_eq_none_iff.mp h) hb
  | some lastPart => exact ⟨_, rfl⟩

/-- `update` on a ready snake: the explicit shape of the result. -/
theorem update_eq (s : Snake) (h : Vec3) (rest : List Vec3)
    (hinit : s.isInitialized = true) (hb : s.body = h :: rest) :
    s.update =
      (if 0 < s.growPending then
        { Snake.addBodyPart
            { s with direction := s.nextDirection,
                     body := (h.add (Vec3.smul s.speed s.nextDirection)) ::
                       (h :: rest).dropLast }
          with growPending := s.growPending - 1 }
      else
        { s with direction := s.nextDirection,
                 body := (h.add (Vec3.smul s.speed s.nextDirection)) ::
                   (h :: rest).dropLast }) := by
  unfold update
  rw [if_neg (not_notReady hinit (by simp [hb]))]
  simp only [hb]

theorem update_direction (s : Snake) (hinit : s.isInitialized = true)
    (hbody : s.body ≠ []) : (s.update).direction = s.nextDirection := by
  obtain ⟨h, rest, hb⟩ : ∃ h rest, s.body = h :: rest := by
    cases hbb : s.body with
    | nil => exact absurd hbb hbody
    | cons a l => exact ⟨a, l, rfl⟩
  rw [update_eq s h rest hinit hb]
  split
  · show (Snake.addBodyPart _).direction = _
    rw [addBodyPart_direction]
  · rfl

theorem changeDirection_accepted (s : Snake) (d : Vec3)
    (hinit : s.isInitialized = true) (hbody : s.body ≠ [])
    (hdot : ¬ Vec3.dot d s.direction < -0.8) :
    s.changeDirection d = { s with nextDirection := d.normalize } := by
  unfold changeDirection
  rw [if_neg (not_notReady hinit hbody), if_neg hdot]

theorem changeDirection_rejected (s : Snake) (d : Vec3)
    (hdot : Vec3.dot d s.direction < -0.8) :
    s.changeDirection d = s := by
  unfold changeDirection
  by_cases hnr : s.notReady
  · rw [if_pos hnr]
  · rw [if_neg hnr, if_pos hdot]

end Snake

/-- An axis-aligned unit vector is a fixed point of `normalize`. -/
theorem normalize_axisUnit (d : Vec3) (hd : isAxisUnit d) :
    d.normalize = d := by
  have h1 : Real.sqrt 1 = 1 := Real.sqrt_one
  rcases hd with h | h | h | h | h | h <;> subst h <;>
    simp [Vec3.normalize, Vec3.length, Vec3.lengthSq]

/-! ## C10 -/

/-- C10: before initialization completes (`isInitialized = false`), every
public operation is a safe no-op: `update`, `grow` and `changeDirection`
leave the state unchanged, both collision checks return false, and
`getHeadPosition` returns the fixed spawn point `(0, 5, 0)`. -/
theorem C10_uninitialized_noop (s : Snake) (d : Vec3) (gridSize : ℝ)
    (hinit : s.isInitialized = false) :
    s.update = s ∧ s.grow = s ∧ s.changeDirection d = s ∧
    ¬ s.checkSelfCollision ∧ ¬ s.checkWallCollision gridSize ∧
    s.getHeadPosition = ⟨0, 5, 0⟩ := by
  have hnr : s.notReady := Or.inl hinit
  refine ⟨?_, ?_, ?_, ?_, ?_, ?_⟩
  · unfold Snake.update; rw [if_pos hnr]
  · unfold Snake.grow; rw [hinit]; simp
  · unfold Snake.changeDirection; rw [if_pos hnr]
  · unfold Snake.checkSelfCollision; rw [if_pos hnr]; exact not_false
  · unfold Snake.checkWallCollision; rw [if_pos hnr]; exact not_false
  · unfold Snake.getHeadPosition; rw [if_pos hnr]

/-- Witness for C10 at a concrete uninitialized snake. -/
theorem C10_uninitialized_noop_witness :
    (let s : Snake :=
      { body := [⟨0, 5, 0⟩], direction := ⟨1, 0, 0⟩,
        nextDirection := ⟨1, 0, 0⟩, speed := 1.5, growPending := 0,
        isInitialized := false }
     s.update = s ∧ s.grow = s ∧ s.changeDirection ⟨0, 0, 1⟩ = s ∧
     ¬ s.checkSelfCollision ∧ ¬ s.checkWallCollision 20 ∧
     s.getHeadPosition = ⟨0, 5, 0⟩) :=
  C10_uninitialized_noop _ _ _ rfl

/-! ## C3 -/

/-- C3: for an axis-aligned unit request `d` on an initialized snake in a
settled state (no direction change already pending, which holds after every
tick since `update` commits `nextDirection` into `direction`): when
`dot(d, direction) ≥ -0.8` the direction after the next `update` equals
`d`; when `dot(d, direction) < -0.8` the direction after `update` is
unchanged. -/
theorem C3_changeDirection_threshold (s : Snake) (d : Vec3)
    (hinit : s.isInitialized = true) (hbody : s.body ≠ [])
    (hsync : s.nextDirection = s.direction) (hd : isAxisUnit d) :
    (-0.8 ≤ Vec3.dot d s.direction →
        ((s.changeDirection d).update).direction = d) ∧
    (Vec3.dot d s.direction < -0.8 →
        ((s.changeDirection d).update).direction = s.direction) := by
  constructor
  · intro hdot
    rw [Snake.changeDirection_accepted s d hinit hbody (not_lt.mpr hdot)]
    rw [Snake.update_direction { s with nextDirection := d.normalize }
      hinit hbody]
    exact normalize_axisUnit d hd
  · intro hdot
    rw [Snake.changeDirection_rejected s d hdot]
    rw [Snake.update_direction s hinit hbody, hsync]

/-- Witness for C3: a concrete snake heading `+X`, requesting `+Z`
(accepted) and `-X` (rejected). -/
theorem C3_changeDirection_threshold_witness :
    (let s : Snake :=
      { body := [⟨0, 5, 0⟩, ⟨-1.2, 5, 0⟩], direction := ⟨1, 0, 0⟩,
        nextDirection := ⟨1, 0, 0⟩, speed := 1.5, growPending := 0,
        isInitialized := true }
     (-0.8 ≤ Vec3.dot ⟨0, 0, 1⟩ s.direction →
        ((s.changeDirection ⟨0, 0, 1⟩).update).direction = ⟨0, 0, 1⟩) ∧
     (Vec3.dot ⟨0, 0, 1⟩ s.direction < -0.8 →
        ((s.changeDirection ⟨0, 0, 1⟩).update).direction = s.direction)) :=
  C3_changeDirection_threshold _ _ rfl (by simp) rfl
    (Or.inr (Or.inr (Or.inr (Or.inr (Or.inl rfl)))))

/-! ## C4 -/

theorem getD_append_left (l l' : List Vec3) (i : ℕ) (d : Vec3)
    (h : i < l.length) : (l ++ l').getD i d = l.getD i d := by
  simp [List.getD_eq_getElem?_getD, List.getElem?_append_left h]

theorem getD_dropLast (l : List Vec3) (i : ℕ) (d : Vec3)
    (h : i < l.length - 1) : l.dropLast.getD i d = l.getD i d := by
  simp only [List.getD_eq_getElem?_getD, List.getElem?_dropLast, if_pos h]

namespace Snake

theorem grow_eq (s : Snake) (hinit : s.isInitialized = true) :
    s.grow = { s with growPending := s.growPending + 1 } := by
  unfold grow; rw [hinit]; simp

/-- What one `update` does to the segment list of a ready snake: the head
advances by `speed * nextDirection`, segment `i ≥ 1` takes the pre-tick
position of segment `i - 1`, and the length grows by one exactly when
growth was pending. -/
theorem update_body_spec (s : Snake) (h : Vec3) (rest : List Vec3)
    (hinit : s.isInitialized = true) (hb : s.body = h :: rest) :
    (s.update).body.getD 0 Vec3.zero =
        h.add (Vec3.smul s.speed s.nextDirection) ∧
    (∀ i, 1 ≤ i → i < s.body.length →
        (s.update).body.getD i Vec3.zero = s.body.getD (i - 1) Vec3.zero) ∧
    (s.update).body.length =
        s.body.length + (if 0 < s.growPending then 1 else 0) := by
  rw [update_eq s h rest hinit hb]
  set newHead := h.add (Vec3.smul s.speed s.nextDirection) with hnh
  set moved : Snake :=
    { s with direction := s.nextDirection,
             body := newHead :: (h :: rest).dropLast } with hmv
  have hmb : moved.body = newHead :: (h :: rest).dropLast := rfl
  have hlenL : moved.body.length = s.body.length := by
    rw [hmb, hb]; simp
  have hgetD : ∀ i, 1 ≤ i → i < s.body.length →
      moved.body.getD i Vec3.zero = s.body.getD (i - 1) Vec3.zero := by
    intro i hi1 hilen
    obtain ⟨j, rfl⟩ : ∃ j, i = j + 1 :=
      ⟨i - 1, (Nat.succ_pred_eq_of_pos hi1).symm⟩
    rw [hmb, List.getD_cons_succ, hb]
    have hj : j < (h :: rest).length - 1 := by
      rw [hb] at hilen; omega
    rw [getD_dropLast _ _ _ hj]
    simp
  by_cases hg : 0 < s.growPending
  · rw [if_pos hg, if_pos hg]
    obtain ⟨p, hp⟩ := addBodyPart_body moved (by rw [hmb]; exact List.cons_ne_nil _ _)
    refine ⟨?_, ?_, ?_⟩
    · show (Snake.addBodyPart moved).body.getD 0 Vec3.zero = newHead
      rw [hp, getD_append_left _ _ _ _ (by rw [hmb]; simp), hmb,
        List.getD_cons_zero]
    · intro i hi1 hilen
      show (Snake.addBodyPart moved).body.getD i Vec3.zero = _
      rw [hp, getD_append_left _ _ _ _ (by rw [hlenL]; exact hilen)]
      exact hgetD i hi1 hilen
    · show (Snake.addBodyPart moved).body.length = _
      rw [hp]; simp [hlenL, hb]
  · rw [if_neg hg, if_neg hg]
    refine ⟨?_, hgetD, ?_⟩
    · rw [hmb, List.getD_cons_zero]
    · rw [hlenL]; simp

end Snake

/-- C4: on an initialized snake, `grow()` followed by one `update()` adds
exactly one segment and consumes exactly one unit of the growth queue; and
every `update()` advances the head by `direction * speed` (the committed
direction) while each trailing segment moves to the pre-tick position of
the segment ahead of it — the shift-by-one-tick follow chain — with the
length changing only by the one appended growth segment. -/
theorem C4_grow_update_follow (s : Snake) (h : Vec3) (rest : List Vec3)
    (hinit : s.isInitialized = true) (hb : s.body = h :: rest) :
    ((s.grow.update).body.length = s.body.length + 1 ∧
     (s.grow.update).growPending = s.growPending) ∧
    ((s.update).direction = s.nextDirection ∧
     (s.update).body.getD 0 Vec3.zero =
        h.add (Vec3.smul s.speed s.nextDirection) ∧
     (∀ i, 1 ≤ i → i < s.body.length →
        (s.update).body.getD i Vec3.zero = s.body.getD (i - 1) Vec3.zero) ∧
     (s.update).body.length =
        s.body.length + (if 0 < s.growPending then 1 else 0)) := by
  have hgrow := Snake.grow_eq s hinit
  have hgb : (s.grow).body = h :: rest := by rw [hgrow]; exact hb
  have hgi : (s.grow).isInitialized = true := by rw [hgrow]; exact hinit
  constructor
  · constructor
    · obtain ⟨-, -, hlen⟩ := Snake.update_body_spec (s.grow) h rest hgi hgb
      rw [hlen, hgrow]
      simp [hb]
    · rw [Snake.update_eq (s.grow) h rest hgi hgb]
      have hgp : (s.grow).growPending = s.growPending + 1 := by rw [hgrow]
      rw [if_pos (by rw [hgp]; exact Nat.succ_pos _)]
      simp [hgp]
  · obtain ⟨hhead, hfollow, hlen⟩ := Snake.update_body_spec s h rest hinit hb
    exact ⟨Snake.update_direction s hinit (by rw [hb]; exact List.cons_ne_nil _ _),
      hhead, hfollow, hlen⟩

/-- Witness for C4 at a concrete 2-segment snake. -/
theorem C4_grow_update_follow_witness :
    (let s : Snake :=
      { body := [⟨0, 5, 0⟩, ⟨-1.2, 5, 0⟩], direction := ⟨1, 0, 0⟩,
        nextDirection := ⟨1, 0, 0⟩, speed := 1.5, growPending := 0,
        isInitialized := true }
     ((s.grow.update).body.length = s.body.length + 1 ∧
      (s.grow.update).growPending = s.growPending) ∧
     ((s.update).direction = s.nextDirection ∧
      (s.update).body.getD 0 Vec3.zero =
         Vec3.add ⟨0, 5, 0⟩ (Vec3.smul s.speed s.nextDirection) ∧
      (∀ i, 1 ≤ i → i < s.body.length →
         (s.update).body.getD i Vec3.zero = s.body.getD (i - 1) Vec3.zero) ∧
      (s.update).body.length =
         s.body.length + (if 0 < s.growPending then 1 else 0))) :=
  C4_grow_update_follow _ _ _ rfl rfl

/-! ## C2 -/

/-- C2, counterexample to the claim as stated: with the head at
`(0, 0.5, 0)` (a state reachable from the spawn height 5 by three `-Y`
steps of 1.5) and `gridSize = 20`, the head's `y` is within the margin 0.6
of the floor plane `y = 0` — so the claim's condition `head.y ≤ margin`
holds — yet `checkWallCollision` returns false: the code's floor test is
`pos.y <= -margin`, not `pos.y <= margin`. -/
theorem C2_wallCollision_counterexample :
    (let s : Snake :=
      { body := [⟨0, 0.5, 0⟩], direction := ⟨0, -1, 0⟩,
        nextDirection := ⟨0, -1, 0⟩, speed := 1.5, growPending := 0,
        isInitialized := true }
     ((0.5 : ℝ) ≤ 0.6 ∧ ¬ s.checkWallCollision 20)) := by
  refine ⟨by norm_num, ?_⟩
  unfold Snake.checkWallCollision
  rw [if_neg (Snake.not_notReady rfl (by simp))]
  norm_num [List.getD_cons_zero]

/-- C2 as amended: `checkWallCollision(gridSize)` on an initialized snake
returns true iff the head is within margin 0.6 inside (or beyond) one of
the X/Z planes at `±gridSize/2`, or `head.y ≤ -0.6` (margin *below* the
floor plane `y = 0`, not above it), or `head.y ≥ gridSize - 0.6`. -/
theorem C2_wallCollision_amended (s : Snake) (h : Vec3) (rest : List Vec3)
    (gridSize : ℝ) (hinit : s.isInitialized = true)
    (hb : s.body = h :: rest) :
    (s.checkWallCollision gridSize ↔
      (h.x ≤ -(gridSize / 2) + 0.6 ∨ h.x ≥ gridSize / 2 - 0.6 ∨
       h.y ≤ -0.6 ∨ h.y ≥ gridSize - 0.6 ∨
       h.z ≤ -(gridSize / 2) + 0.6 ∨ h.z ≥ gridSize / 2 - 0.6)) := by
  unfold Snake.checkWallCollision
  rw [if_neg (Snake.not_notReady hinit (by simp [hb]))]
  rw [hb]
  simp only [List.getD_cons_zero]

/-- Witness for the amended C2 at the concrete counterexample state. -/
theorem C2_wallCollision_amended_witness :
    (let s : Snake :=
      { body := [⟨0, 0.5, 0⟩], direction := ⟨0, -1, 0⟩,
        nextDirection := ⟨0, -1, 0⟩, speed := 1.5, growPending := 0,
        isInitialized := true }
     (s.checkWallCollision 20 ↔
       ((0 : ℝ) ≤ -(20 / 2) + 0.6 ∨ (0 : ℝ) ≥ 20 / 2 - 0.6 ∨
        (0.5 : ℝ) ≤ -0.6 ∨ (0.5 : ℝ) ≥ 20 - 0.6 ∨
        (0 : ℝ) ≤ -(20 / 2) + 0.6 ∨ (0 : ℝ) ≥ 20 / 2 - 0.6))) :=
  C2_wallCollision_amended _ ⟨0, 0.5, 0⟩ [] 20 rfl rfl

/-! ## C5 -/

theorem Vec3.length_smul (c : ℝ) (v : Vec3) :
    (Vec3.smul c v).length = |c| * v.length := by
  unfold Vec3.length Vec3.lengthSq Vec3.smul
  have : c * v.x * (c * v.x) + c * v.y * (c * v.y) + c * v.z * (c * v.z) =
      c ^ 2 * (v.x * v.x + v.y * v.y + v.z * v.z) := by ring
  rw [this, Real.sqrt_mul (sq_nonneg c), Real.sqrt_sq_eq_abs]

theorem Vec3.normalize_of_length_ne_zero (v : Vec3) (hv : v.length ≠ 0) :
    v.normalize = Vec3.smul v.length⁻¹ v := by
  unfold Vec3.normalize; rw [if_neg hv]

/-- `addBodyPart` on a snake with at least two segments, with the last two
made explicit: the appended position is
`last + (-1.2) * normalize(last - secondLast)`. -/
theorem Snake.addBodyPart_eq_two (s : Snake) (init : List Vec3)
    (sl l : Vec3) (hb : s.body = init ++ [sl, l]) :
    s.addBodyPart =
      { s with body :=
          s.body ++ [l.add (Vec3.smul (-1.2) (Vec3.normalize (l.sub sl)))] } := by
  have hsplit : s.body = (init ++ [sl]) ++ [l] := by
    rw [hb, List.append_assoc]; rfl
  have hlast : s.body.getLast? = some l := by
    rw [hsplit]; exact List.getLast?_concat _
  have hlen : s.body.length = init.length + 2 := by rw [hb]; simp
  have hsl : s.body.getD (s.body.length - 2) Vec3.zero = sl := by
    rw [hlen, hsplit]
    have h2 : init.length + 2 - 2 = init.length := by omega
    rw [h2,
      getD_append_left _ _ _ _ (by simp : init.length < (init ++ [sl]).length)]
    rw [List.getD_eq_getElem?_getD, List.getElem?_concat_length]
    rfl
  unfold Snake.addBodyPart
  simp only [hlast, hsl, if_neg (show ¬ s.body.length = 1 from by omega)]

/-- C5, counterexample to the claim as stated: a snake whose last two
segments sit at the standard spacing 1.2 apart (second-to-last `(0,5,0)`,
last `(1.2,5,0)`).  `addBodyPart` places the new segment at `(0,5,0)` —
exactly *on* the second-to-last segment, on the side toward the body — so
its distance to the second-to-last segment is 0, not strictly greater than
the last segment's distance 1.2. -/
theorem C5_addBodyPart_counterexample :
    (let s : Snake :=
      { body := [⟨0, 5, 0⟩, ⟨1.2, 5, 0⟩], direction := ⟨1, 0, 0⟩,
        nextDirection := ⟨1, 0, 0⟩, speed := 1.5, growPending := 0,
        isInitialized := true }
     ((s.addBodyPart).body = [⟨0, 5, 0⟩, ⟨1.2, 5, 0⟩, ⟨0, 5, 0⟩] ∧
      Vec3.distanceTo ⟨0, 5, 0⟩ ⟨0, 5, 0⟩ = 0 ∧
      Vec3.distanceTo ⟨1.2, 5, 0⟩ ⟨0, 5, 0⟩ = 1.2 ∧
      ¬ Vec3.distanceTo ⟨0, 5, 0⟩ ⟨0, 5, 0⟩ >
          Vec3.distanceTo ⟨1.2, 5, 0⟩ ⟨0, 5, 0⟩)) := by
  have hlen : Vec3.length ⟨1.2, 0, 0⟩ = 1.2 := by
    unfold Vec3.length Vec3.lengthSq
    rw [show (1.2 : ℝ) * 1.2 + 0 * 0 + 0 * 0 = 1.2 ^ 2 by norm_num]
    rw [Real.sqrt_sq (by norm_num)]
  have hsubeq : Vec3.sub ⟨1.2, 5, 0⟩ ⟨0, 5, 0⟩ = ⟨1.2, 0, 0⟩ := by
    unfold Vec3.sub; norm_num
  have hd12 : Vec3.distanceTo ⟨1.2, 5, 0⟩ ⟨0, 5, 0⟩ = 1.2 := by
    unfold Vec3.distanceTo
    rw [hsubeq]; exact hlen
  have hd0 : Vec3.distanceTo ⟨0, 5, 0⟩ ⟨0, 5, 0⟩ = 0 := by
    unfold Vec3.distanceTo
    rw [show Vec3.sub ⟨0, 5, 0⟩ ⟨0, 5, 0⟩ = ⟨0, 0, 0⟩ by
      unfold Vec3.sub; norm_num]
    unfold Vec3.length Vec3.lengthSq
    norm_num
  refine ⟨?_, hd0, hd12, by rw [hd0, hd12]; norm_num⟩
  rw [Snake.addBodyPart_eq_two _ [] ⟨0, 5, 0⟩ ⟨1.2, 5, 0⟩ rfl]
  rw [hsubeq, Vec3.normalize_of_length_ne_zero _ (by rw [hlen]; norm_num),
    hlen]
  unfold Vec3.smul Vec3.add
  norm_num

/-- C5 as amended: whenever a segment is appended to a snake with at least
2 segments, the new segment is placed at the fixed spacing 1.2 from the
current last segment along the line through the last two segments, but on
the side *toward* the second-to-last segment (the code negates the unit
vector from second-to-last toward last): writing `L` for the distance from
the last to the second-to-last segment, the new segment's distance to the
second-to-last segment is `|L - 1.2|`, which is strictly *less* than `L`
whenever `L > 0.6` (and zero at the standard spacing `L = 1.2`). -/
theorem C5_addBodyPart_amended (s : Snake) (init : List Vec3) (sl l : Vec3)
    (hb : s.body = init ++ [sl, l]) (hL : 0 < Vec3.distanceTo l sl) :
    (let p := l.add (Vec3.smul (-1.2) (Vec3.normalize (l.sub sl)))
     (s.addBodyPart).body = s.body ++ [p] ∧
     Vec3.distanceTo p l = 1.2 ∧
     Vec3.distanceTo p sl = |Vec3.distanceTo l sl - 1.2| ∧
     (0.6 < Vec3.distanceTo l sl →
       Vec3.distanceTo p sl < Vec3.distanceTo l sl)) := by
  intro p
  set d : Vec3 := l.sub sl with hd
  set L : ℝ := Vec3.distanceTo l sl with hLs
  have hdL : d.length = L := rfl
  have hLne : L ≠ 0 := ne_of_gt hL
  have hnorm : (l.sub sl).normalize = Vec3.smul L⁻¹ d := by
    rw [← hd, Vec3.normalize_of_length_ne_zero d (by rw [hdL]; exact hLne)]
    rw [hdL]
  have hp : p = l.add (Vec3.smul (-1.2) (Vec3.smul L⁻¹ d)) := by
    show l.add (Vec3.smul (-1.2) (Vec3.normalize (l.sub sl))) = _
    rw [hnorm]
  have habs : |L| = L := abs_of_pos hL
  -- distance from the new segment to the last segment
  have hdist_l : Vec3.distanceTo p l = 1.2 := by
    have hsub : p.sub l = Vec3.smul (-1.2 * L⁻¹) d := by
      rw [hp]; unfold Vec3.add Vec3.sub Vec3.smul
      simp only [Vec3.mk.injEq]
      refine ⟨by ring, by ring, by ring⟩
    unfold Vec3.distanceTo
    rw [hsub, Vec3.length_smul, hdL, abs_mul, abs_inv, habs]
    rw [abs_of_nonpos (by norm_num : (-1.2 : ℝ) ≤ 0)]
    field_simp
  -- distance from the new segment to the second-to-last segment
  have hdist_sl : Vec3.distanceTo p sl = |L - 1.2| := by
    have hsub : p.sub sl = Vec3.smul (1 - 1.2 * L⁻¹) d := by
      rw [hp, hd]; unfold Vec3.add Vec3.sub Vec3.smul
      simp only [Vec3.mk.injEq]
      refine ⟨by ring, by ring, by ring⟩
    unfold Vec3.distanceTo
    rw [hsub, Vec3.length_smul, hdL]
    rw [show 1 - 1.2 * L⁻¹ = (L - 1.2) * L⁻¹ by field_simp]
    rw [abs_mul, abs_inv, habs]
    field_simp
  refine ⟨?_, hdist_l, hdist_sl, ?_⟩
  · rw [Snake.addBodyPart_eq_two s init sl l hb]
  · intro h06
    rw [hdist_sl]
    rcases abs_cases (L - 1.2) with ⟨he, -⟩ | ⟨he, -⟩ <;> rw [he] <;> linarith

/-- Witness for the amended C5: last two segments 3 apart along `+Z`; the
appended segment lands 1.2 back toward the body, distance `|3 - 1.2| = 1.8`
from the second-to-last segment. -/
theorem C5_addBodyPart_amended_witness :
    (let p := Vec3.add ⟨0, 5, 3⟩
      (Vec3.smul (-1.2) (Vec3.normalize (Vec3.sub ⟨0, 5, 3⟩ ⟨0, 5, 0⟩)))
     (Snake.addBodyPart
        { body := [⟨0, 5, 0⟩, ⟨0, 5, 3⟩], direction := ⟨0, 0, 1⟩,
          nextDirection := ⟨0, 0, 1⟩, speed := 1.5, growPending := 0,
          isInitialized := true }).body = [⟨0, 5, 0⟩, ⟨0, 5, 3⟩] ++ [p] ∧
     Vec3.distanceTo p ⟨0, 5, 3⟩ = 1.2 ∧
     Vec3.distanceTo p ⟨0, 5, 0⟩ = |Vec3.distanceTo ⟨0, 5, 3⟩ ⟨0, 5, 0⟩ - 1.2| ∧
     (0.6 < Vec3.distanceTo ⟨0, 5, 3⟩ ⟨0, 5, 0⟩ →
       Vec3.distanceTo p ⟨0, 5, 0⟩ < Vec3.distanceTo ⟨0, 5, 3⟩ ⟨0, 5, 0⟩)) :=
  C5_addBodyPart_amended _ [] ⟨0, 5, 0⟩ ⟨0, 5, 3⟩ rfl (by
    unfold Vec3.distanceTo Vec3.sub Vec3.length Vec3.lengthSq
    norm_num [Real.sqrt_pos])

/-! ## C6 -/

/-- C6: when the head-to-food distance is below 1.5 at the tick's
food-collision check, the controller queues one unit of snake growth,
respawns the food, adds exactly 10 to the score, and sets the move
interval to `max(0.03, moveInterval * 0.95)`; at distance 1.5 or more the
check changes nothing. -/
theorem C6_foodCollision_effects (gm : Game) (g : ℕ → ℝ)
    (hsi : gm.snake.isInitialized = true) (hsb : gm.snake.body ≠ [])
    (_hfi : gm.food.isInitialized = true) :
    (Vec3.distanceTo gm.snake.getHeadPosition gm.food.getPosition < 1.5 →
       (gm.checkFoodCollision g).score = gm.score + 10 ∧
       (gm.checkFoodCollision g).snake.growPending =
         gm.snake.growPending + 1 ∧
       (gm.checkFoodCollision g).moveDelay = max 0.03 (gm.moveDelay * 0.95) ∧
       (gm.checkFoodCollision g).food = gm.food.respawn gm.gridSize g) ∧
    (1.5 ≤ Vec3.distanceTo gm.snake.getHeadPosition gm.food.getPosition →
       gm.checkFoodCollision g = gm) := by
  unfold Game.checkFoodCollision
  rw [if_neg hsb]
  constructor
  · intro hdist
    rw [if_pos hdist]
    refine ⟨rfl, ?_, rfl, rfl⟩
    show (gm.snake.grow).growPending = _
    rw [Snake.grow_eq gm.snake hsi]
  · intro hdist
    rw [if_neg (not_lt.mpr hdist)]

/-- Witness for C6 at a concrete game state (head at the spawn point, food
1.4 units away). -/
theorem C6_foodCollision_effects_witness :
    (let gm : Game :=
      { snake := { body := [⟨0, 5, 0⟩, ⟨-1.2, 5, 0⟩], direction := ⟨1, 0, 0⟩,
                   nextDirection := ⟨1, 0, 0⟩, speed := 1.5, growPending := 0,
                   isInitialized := true },
        food := { position := ⟨0, 5, 1.4⟩, gridSize := 20,
                  isInitialized := true, lastSpawnPosition := none },
        score := 0, gridSize := 20, moveDelay := 0.1 }
     let g : ℕ → ℝ := fun _ => 0
     (Vec3.distanceTo gm.snake.getHeadPosition gm.food.getPosition < 1.5 →
        (gm.checkFoodCollision g).score = gm.score + 10 ∧
        (gm.checkFoodCollision g).snake.growPending =
          gm.snake.growPending + 1 ∧
        (gm.checkFoodCollision g).moveDelay = max 0.03 (gm.moveDelay * 0.95) ∧
        (gm.checkFoodCollision g).food = gm.food.respawn gm.gridSize g) ∧
     (1.5 ≤ Vec3.distanceTo gm.snake.getHeadPosition gm.food.getPosition →
        gm.checkFoodCollision g = gm)) :=
  C6_foodCollision_effects _ _ rfl (by simp) rfl

/-! ## C7 -/

/-- C7, counterexample to the claim as stated: `changeDirection` performs
no axis-alignment validation.  The non-axis-aligned request `(3,4,0)` —
which normalizes to `(0.6, 0.8, 0)`, not one of the 6 axis-aligned unit
vectors — has dot product 3 ≥ -0.8 with the current direction `(1,0,0)`,
so it is accepted: the pending direction changes to `(0.6, 0.8, 0)` rather
than the call being a no-op. -/
theorem C7_nonAxis_counterexample :
    (let s : Snake :=
      { body := [⟨0, 5, 0⟩, ⟨-1.2, 5, 0⟩], direction := ⟨1, 0, 0⟩,
        nextDirection := ⟨1, 0, 0⟩, speed := 1.5, growPending := 0,
        isInitialized := true }
     (¬ isAxisUnit (Vec3.normalize ⟨3, 4, 0⟩) ∧
      (s.changeDirection ⟨3, 4, 0⟩).nextDirection = ⟨0.6, 0.8, 0⟩ ∧
      (s.changeDirection ⟨3, 4, 0⟩).nextDirection ≠ s.nextDirection)) := by
  have h5 : Vec3.length ⟨3, 4, 0⟩ = 5 := by
    unfold Vec3.length Vec3.lengthSq
    rw [show (3 : ℝ) * 3 + 4 * 4 + 0 * 0 = 5 ^ 2 by norm_num]
    exact Real.sqrt_sq (by norm_num)
  have hnorm : Vec3.normalize ⟨3, 4, 0⟩ = ⟨0.6, 0.8, 0⟩ := by
    rw [Vec3.normalize_of_length_ne_zero _ (by rw [h5]; norm_num), h5]
    unfold Vec3.smul
    norm_num
  refine ⟨?_, ?_, ?_⟩
  · rw [hnorm]
    norm_num [isAxisUnit, Vec3.mk.injEq]
  · rw [Snake.changeDirection_accepted _ _ rfl (by simp)
      (by unfold Vec3.dot; norm_num)]
    exact hnorm
  · rw [Snake.changeDirection_accepted _ _ rfl (by simp)
      (by unfold Vec3.dot; norm_num)]
    show Vec3.normalize ⟨3, 4, 0⟩ ≠ ⟨1, 0, 0⟩
    rw [hnorm]
    simp only [ne_eq, Vec3.mk.injEq]
    norm_num

/-- C7 as amended: `changeDirection` validates only the reversal
threshold.  A request with `dot(request, direction) < -0.8` is silently
ignored; *any* other request — axis-aligned or not — is normalized and
stored into the pending direction.  (In the game only the 6 axis-aligned
unit vectors are ever passed, so the missing validation is unobservable
through the input handlers.) -/
theorem C7_changeDirection_amended (s : Snake) (req : Vec3)
    (hinit : s.isInitialized = true) (hbody : s.body ≠ []) :
    (Vec3.dot req s.direction < -0.8 → s.changeDirection req = s) ∧
    (-0.8 ≤ Vec3.dot req s.direction →
       s.changeDirection req = { s with nextDirection := req.normalize }) :=
  ⟨fun hdot => Snake.changeDirection_rejected s req hdot,
   fun hdot =>
     Snake.changeDirection_accepted s req hinit hbody (not_lt.mpr hdot)⟩

/-- Witness for the amended C7 at a concrete snake and the diagonal
request `(3,4,0)`. -/
theorem C7_changeDirection_amended_witness :
    (let s : Snake :=
      { body := [⟨0, 5, 0⟩, ⟨-1.2, 5, 0⟩], direction := ⟨1, 0, 0⟩,
        nextDirection := ⟨1, 0, 0⟩, speed := 1.5, growPending := 0,
        isInitialized := true }
     (Vec3.dot ⟨3, 4, 0⟩ s.direction < -0.8 →
        s.changeDirection ⟨3, 4, 0⟩ = s) ∧
     (-0.8 ≤ Vec3.dot ⟨3, 4, 0⟩ s.direction →
        s.changeDirection ⟨3, 4, 0⟩ =
          { s with nextDirection := Vec3.normalize ⟨3, 4, 0⟩ })) :=
  C7_changeDirection_amended _ _ rfl (by simp)

/-! ## C8 -/

/-- Unfolding lemma for one pass of the retry loop. -/
theorem respawnLoop_succ (fuel : ℕ) (zone : ℕ) (gridSize : ℝ) (b : Bounds)
    (last : Option Vec3) (g : ℕ → ℝ) (k attempts : ℕ) :
    respawnLoop (fuel + 1) zone gridSize b last g k attempts =
      (if 10 ≤ attempts + 1 then
        generateFallbackPosition b g (genZone zone gridSize b g k).2
      else if isTooCloseToLastPosition last (genZone zone gridSize b g k).1
        then respawnLoop fuel zone gridSize b last g
          (genZone zone gridSize b g k).2 (attempts + 1)
      else genZone zone gridSize b g k) := rfl

/-- `respawn` on an initialized food, written as one record update. -/
theorem Food.respawn_eq (f : Food) (gridSize : ℝ) (g : ℕ → ℝ)
    (hfi : f.isInitialized = true) :
    f.respawn gridSize g =
      { f with gridSize := gridSize
               position := (respawnLoop 10 (getWeightedRandomZone (g 0))
                 gridSize (computeBounds gridSize) f.lastSpawnPosition
                 g 1 0).1
               lastSpawnPosition := some ((respawnLoop 10
                 (getWeightedRandomZone (g 0)) gridSize
                 (computeBounds gridSize) f.lastSpawnPosition g 1 0).1) } := by
  unfold Food.respawn
  rw [if_neg (by simp [hfi])]

/-- C8, counterexample to the claim as stated: `respawn` does *not* save
the pre-call position as `lastSpawnPosition` — it stores a clone of the
*newly committed* position there (`this.lastSpawnPosition =
this.position.clone()` runs after `this.position.copy(newPosition)`).
Concretely: food at `(0,0,0)` with no last spawn, draws all 0.9 (zone 3,
uniform) on grid 20 commits `(5.6, 15.6, 5.6)`, and `lastSpawnPosition`
ends up `some (5.6, 15.6, 5.6)`, not the old position `some (0,0,0)`. -/
theorem C8_lastSpawn_counterexample :
    (let f : Food :=
      { position := ⟨0, 0, 0⟩, gridSize := 20, isInitialized := true,
        lastSpawnPosition := none }
     let g : ℕ → ℝ := fun _ => 0.9
     ((f.respawn 20 g).position = ⟨5.6, 15.6, 5.6⟩ ∧
      (f.respawn 20 g).lastSpawnPosition = some ⟨5.6, 15.6, 5.6⟩ ∧
      (f.respawn 20 g).lastSpawnPosition ≠ some f.position)) := by
  intro f g
  have hzone : getWeightedRandomZone (g 0) = 3 := by
    unfold getWeightedRandomZone
    norm_num
  have hcand : generateRandomPosition (computeBounds 20) g 1 =
      (⟨5.6, 15.6, 5.6⟩, 4) := by
    unfold generateRandomPosition computeBounds uniformIn
    norm_num
  have hloop : respawnLoop 10 3 20 (computeBounds 20)
      f.lastSpawnPosition g 1 0 = (⟨5.6, 15.6, 5.6⟩, 4) := by
    show respawnLoop 10 3 20 (computeBounds 20) none g 1 0 = _
    rw [show (10 : ℕ) = 9 + 1 from rfl, respawnLoop_succ]
    show (if (10 : ℕ) ≤ 0 + 1 then _
          else if isTooCloseToLastPosition none
              (genZone 3 20 (computeBounds 20) g 1).1 then _
          else genZone 3 20 (computeBounds 20) g 1) = _
    rw [if_neg (by norm_num),
      if_neg (show ¬ isTooCloseToLastPosition none
        (genZone 3 20 (computeBounds 20) g 1).1 from fun h => h)]
    show generateRandomPosition (computeBounds 20) g 1 = _
    exact hcand
  rw [Food.respawn_eq f 20 g rfl, hzone, hloop]
  refine ⟨rfl, rfl, ?_⟩
  simp only [Option.some.injEq, Vec3.mk.injEq, ne_eq]
  norm_num

/-- C8 as amended: at the end of a committed `respawn` call the newly
generated position is stored as the food's position, and a clone of that
*same new* position — not the old one — is saved as `lastSpawnPosition`;
since this happens on every committed call, the next call's
minimum-distance check still compares candidates against the previous
call's spawn location. -/
theorem C8_lastSpawn_amended (f : Food) (gridSize : ℝ) (g : ℕ → ℝ)
    (hfi : f.isInitialized = true) :
    (f.respawn gridSize g).position =
      (respawnLoop 10 (getWeightedRandomZone (g 0)) gridSize
        (computeBounds gridSize) f.lastSpawnPosition g 1 0).1 ∧
    (f.respawn gridSize g).lastSpawnPosition =
      some ((f.respawn gridSize g).position) := by
  unfold Food.respawn
  rw [if_neg (by simp [hfi])]
  exact ⟨rfl, rfl⟩

/-! ## C9 -/

/-- When every zone candidate is too close to the last spawn position, the
retry loop runs through its whole budget and returns the fallback position,
generated at the cursor reached after the 10 discarded candidate
generations. -/
theorem respawnLoop_all_tooClose (zone : ℕ) (gridSize : ℝ) (b : Bounds)
    (last : Option Vec3) (g : ℕ → ℝ)
    (hclose : ∀ k, isTooCloseToLastPosition last
      (genZone zone gridSize b g k).1) :
    ∀ fuel attempts k, fuel + attempts = 10 → 1 ≤ fuel →
      respawnLoop fuel zone gridSize b last g k attempts =
        generateFallbackPosition b g
          ((fun j => (genZone zone gridSize b g j).2)^[fuel] k) := by
  intro fuel
  induction fuel with
  | zero => intro attempts k h10 h1; omega
  | succ fuel' ih =>
    intro attempts k h10 _
    rw [respawnLoop_succ]
    by_cases hcap : 10 ≤ attempts + 1
    · rw [if_pos hcap]
      have hf0 : fuel' = 0 := by omega
      subst hf0
      simp
    · rw [if_neg hcap, if_pos (hclose k)]
      rw [ih (attempts + 1) ((genZone zone gridSize b g k).2) (by omega)
        (by omega)]
      rw [Function.iterate_succ_apply]

/-- C9: if every candidate the selected zone generator can produce is
within the minimum distance 4 of the last spawn position, `respawn`
exhausts its `maxAttempts = 10` budget and commits the fallback position —
the geometric center of the bounds plus an independent per-axis jitter in
`[-2, 2]` — and commits it as is, with no further minimum-distance check
(the conclusion constrains the fallback only by the jitter bound, so the
committed position may itself lie within distance 4 of the last spawn). -/
theorem C9_fallback_committed (f : Food) (gridSize : ℝ) (g : ℕ → ℝ)
    (hfi : f.isInitialized = true) (hg : ∀ n, 0 ≤ g n ∧ g n < 1)
    (hclose : ∀ k, isTooCloseToLastPosition f.lastSpawnPosition
      (genZone (getWeightedRandomZone (g 0)) gridSize
        (computeBounds gridSize) g k).1) :
    (let b := computeBounds gridSize
     let zone := getWeightedRandomZone (g 0)
     let kf := (fun j => (genZone zone gridSize b g j).2)^[10] 1
     (f.respawn gridSize g).position =
        (generateFallbackPosition b g kf).1 ∧
     |(f.respawn gridSize g).position.x - (b.minX + b.maxX) / 2| ≤ 2 ∧
     |(f.respawn gridSize g).position.y - (b.minY + b.maxY) / 2| ≤ 2 ∧
     |(f.respawn gridSize g).position.z - (b.minZ + b.maxZ) / 2| ≤ 2) := by
  intro b zone kf
  have hpos : (f.respawn gridSize g).position =
      (generateFallbackPosition b g kf).1 := by
    rw [Food.respawn_eq f gridSize g hfi]
    show (respawnLoop 10 zone gridSize b f.lastSpawnPosition g 1 0).1 = _
    rw [respawnLoop_all_tooClose zone gridSize b f.lastSpawnPosition g
      hclose 10 0 1 rfl (by omega)]
  refine ⟨hpos, ?_, ?_, ?_⟩ <;> rw [hpos] <;>
    unfold generateFallbackPosition <;> rw [abs_le]
  · obtain ⟨h0, h1⟩ := hg kf
    constructor <;> simp only <;> nlinarith
  · obtain ⟨h0, h1⟩ := hg (kf + 1)
    constructor <;> simp only <;> nlinarith
  · obtain ⟨h0, h1⟩ := hg (kf + 2)
    constructor <;> simp only <;> nlinarith

/-- Witness for C9: grid 20, every draw `1/2` (zone 1, corner index 6,
zero jitter — each candidate is exactly `(7, 16, -7)`), last spawn at
`(7, 16, -7)`: every candidate is discarded and the fallback — here the
exact bounds center `(0, 10, 0)` — is committed. -/
theorem C9_fallback_committed_witness :
    (let f : Food :=
      { position := ⟨0, 0, 0⟩, gridSize := 20, isInitialized := true,
        lastSpawnPosition := some ⟨7, 16, -7⟩ }
     let g : ℕ → ℝ := fun _ => 1 / 2
     let b := computeBounds 20
     let zone := getWeightedRandomZone (g 0)
     let kf := (fun j => (genZone zone 20 b g j).2)^[10] 1
     (f.respawn 20 g).position = (generateFallbackPosition b g kf).1 ∧
     |(f.respawn 20 g).position.x - (b.minX + b.maxX) / 2| ≤ 2 ∧
     |(f.respawn 20 g).position.y - (b.minY + b.maxY) / 2| ≤ 2 ∧
     |(f.respawn 20 g).position.z - (b.minZ + b.maxZ) / 2| ≤ 2) :=
  C9_fallback_committed _ 20 _ rfl (fun n => ⟨by norm_num, by norm_num⟩)
    (by
      intro k
      have hzone : getWeightedRandomZone ((1 : ℝ) / 2) = 1 := by
        unfold getWeightedRandomZone
        rw [if_neg (by norm_num), if_pos (by norm_num)]
      rw [hzone]
      show isTooCloseToLastPosition (some ⟨7, 16, -7⟩)
        (generateCornerPosition (computeBounds 20) (fun _ => 1 / 2) k).1
      have hfloor : (Int.floor ((1 : ℝ) / 2 * 12)).toNat = 6 := by
        rw [show (1 : ℝ) / 2 * 12 = ((6 : ℤ) : ℝ) by norm_num,
          Int.floor_intCast]
        rfl
      have hcand : (generateCornerPosition (computeBounds 20)
          (fun _ => 1 / 2) k).1 = ⟨7, 16, -7⟩ := by
        unfold generateCornerPosition
        simp only [hfloor]
        unfold cornerList computeBounds
        norm_num
      rw [hcand]
      show Vec3.distanceTo ⟨7, 16, -7⟩ ⟨7, 16, -7⟩ < 4
      unfold Vec3.distanceTo Vec3.sub Vec3.length Vec3.lengthSq
      norm_num)

/-- Witness for the amended C8 at a concrete food state. -/
theorem C8_lastSpawn_amended_witness :
    (let f : Food :=
      { position := ⟨0, 0, 0⟩, gridSize := 20, isInitialized := true,
        lastSpawnPosition := none }
     let g : ℕ → ℝ := fun _ => 0.9
     ((f.respawn 20 g).position =
        (respawnLoop 10 (getWeightedRandomZone (g 0)) 20
          (computeBounds 20) f.lastSpawnPosition g 1 0).1 ∧
      (f.respawn 20 g).lastSpawnPosition =
        some ((f.respawn 20 g).position))) :=
  C8_lastSpawn_amended _ 20 _ rfl

/-! ## C1 -/

theorem uniformIn_mem (lo hi r : ℝ) (h0 : 0 ≤ r) (h1 : r < 1)
    (hlh : lo ≤ hi) : lo ≤ uniformIn lo hi r ∧ uniformIn lo hi r ≤ hi := by
  unfold uniformIn
  constructor <;> nlinarith

theorem inBounds_wide (b : Bounds) (v : Vec3) (h : inBounds b v) :
    inBoundsWide b v := by
  obtain ⟨h1, h2, h3, h4, h5, h6⟩ := h
  exact ⟨by linarith, by linarith, h3, h4, by linarith, by linarith⟩

theorem generateCenterPosition_inBounds (gs : ℝ) (g : ℕ → ℝ) (k : ℕ)
    (hgs : 12 ≤ gs) (hg : ∀ n, 0 ≤ g n ∧ g n < 1) :
    inBounds (computeBounds gs) (generateCenterPosition gs g k).1 := by
  obtain ⟨h00, h01⟩ := hg k
  obtain ⟨h10, h11⟩ := hg (k + 1)
  obtain ⟨h20, h21⟩ := hg (k + 2)
  have hc1 : min 10 (gs * 0.5) ≤ gs * 0.5 := min_le_right _ _
  have hc0 : 0 ≤ min 10 (gs * 0.5) := le_min (by norm_num) (by nlinarith)
  unfold generateCenterPosition inBounds computeBounds uniformIn
  dsimp only
  refine ⟨?_, ?_, ?_, ?_, ?_, ?_⟩ <;>
    nlinarith [mul_nonneg h00 hc0, mul_nonneg h10 (by nlinarith : (0:ℝ) ≤ gs),
      mul_nonneg h20 hc0, mul_le_of_le_one_left hc0 h01.le,
      mul_le_of_le_one_left hc0 h21.le,
      mul_le_of_le_one_left (by nlinarith : (0:ℝ) ≤ gs) h11.le]

theorem cornerList_mem_coords (b : Bounds) (v : Vec3)
    (hgap : b.minY + 2 ≤ b.maxY) (hv : v ∈ cornerList b) :
    (v.x = b.minX ∨ v.x = b.maxX) ∧ (v.z = b.minZ ∨ v.z = b.maxZ) ∧
    b.minY + 1 ≤ v.y ∧ v.y ≤ b.maxY - 1 := by
  unfold cornerList at hv
  fin_cases hv <;> dsimp only <;>
    refine ⟨?_, ?_, by linarith, by linarith⟩ <;>
    first | exact Or.inl rfl | exact Or.inr rfl

theorem generateCornerPosition_inBoundsWide (gs : ℝ) (g : ℕ → ℝ) (k : ℕ)
    (hgs : 12 ≤ gs) (hg : ∀ n, 0 ≤ g n ∧ g n < 1) :
    inBoundsWide (computeBounds gs)
      (generateCornerPosition (computeBounds gs) g k).1 := by
  set b := computeBounds gs with hb
  obtain ⟨h00, h01⟩ := hg k
  obtain ⟨h10, h11⟩ := hg (k + 1)
  obtain ⟨h20, h21⟩ := hg (k + 2)
  obtain ⟨h30, h31⟩ := hg (k + 3)
  have hXgap : b.minX + 6 ≤ b.maxX := by
    rw [hb]; unfold computeBounds; dsimp only; linarith
  have hYgap : b.minY + 6 ≤ b.maxY := by
    rw [hb]; unfold computeBounds; dsimp only; linarith
  have hZgap : b.minZ + 6 ≤ b.maxZ := by
    rw [hb]; unfold computeBounds; dsimp only; linarith
  have hidxlt : ((Int.floor (g k * 12)).toNat) < 12 := by
    have hlt : Int.floor (g k * 12) < 12 := by
      rw [Int.floor_lt]; push_cast; nlinarith
    omega
  have hmem : (cornerList b).getD ((Int.floor (g k * 12)).toNat) Vec3.zero ∈
      cornerList b := by
    have hlen : (cornerList b).length = 12 := rfl
    rw [List.getD_eq_getElem?_getD,
      List.getElem?_eq_getElem (by rw [hlen]; exact hidxlt)]
    exact List.getElem_mem _
  obtain ⟨hx, hz, hy1, hy2⟩ :=
    cornerList_mem_coords b _ (by linarith) hmem
  unfold generateCornerPosition
  dsimp only
  unfold inBoundsWide
  refine ⟨?_, ?_, ?_, ?_, ?_, ?_⟩
  · rcases hx with h | h <;> rw [h] <;> linarith
  · rcases hx with h | h <;> rw [h] <;> linarith
  · linarith
  · linarith
  · rcases hz with h | h <;> rw [h] <;> linarith
  · rcases hz with h | h <;> rw [h] <;> linarith

theorem generateEdgePosition_inBounds (gs : ℝ) (g : ℕ → ℝ) (k : ℕ)
    (hgs : 12 ≤ gs) (hg : ∀ n, 0 ≤ g n ∧ g n < 1) :
    inBounds (computeBounds gs)
      (generateEdgePosition (computeBounds gs) g k).1 := by
  set b := computeBounds gs with hb
  obtain ⟨h00, h01⟩ := hg k
  obtain ⟨h10, h11⟩ := hg (k + 1)
  obtain ⟨h20, h21⟩ := hg (k + 2)
  obtain ⟨h30, h31⟩ := hg (k + 3)
  have hXgap : b.minX + 6 ≤ b.maxX := by
    rw [hb]; unfold computeBounds; dsimp only; linarith
  have hYgap : b.minY + 6 ≤ b.maxY := by
    rw [hb]; unfold computeBounds; dsimp only; linarith
  have hZgap : b.minZ + 6 ≤ b.maxZ := by
    rw [hb]; unfold computeBounds; dsimp only; linarith
  obtain ⟨hux0, hux1⟩ :=
    uniformIn_mem b.minX b.maxX (g (k + 2)) h20 h21 (by linarith)
  obtain ⟨huz0, huz1⟩ :=
    uniformIn_mem b.minZ b.maxZ (g (k + 3)) h30 h31 (by linarith)
  obtain ⟨hvz0, hvz1⟩ :=
    uniformIn_mem b.minZ b.maxZ (g (k + 2)) h20 h21 (by linarith)
  have htidx : ((Int.floor (g (k + 1) * 3)).toNat) < 3 := by
    have hlt : Int.floor (g (k + 1) * 3) < 3 := by
      rw [Int.floor_lt]; push_cast; nlinarith
    omega
  have htier : b.minY ≤ ([b.minY + 2, (b.minY + b.maxY) / 2,
        b.maxY - 2].getD ((Int.floor (g (k + 1) * 3)).toNat) 0) ∧
      ([b.minY + 2, (b.minY + b.maxY) / 2,
        b.maxY - 2].getD ((Int.floor (g (k + 1) * 3)).toNat) 0) ≤ b.maxY := by
    set t := (Int.floor (g (k + 1) * 3)).toNat with ht
    interval_cases t <;>
      simp only [List.getD_cons_zero, List.getD_cons_succ] <;>
      constructor <;> linarith
  obtain ⟨ht0, ht1⟩ := htier
  unfold generateEdgePosition
  unfold inBounds
  dsimp only
  split_ifs <;>
    exact ⟨by dsimp only; linarith, by dsimp only; linarith,
      by dsimp only; linarith, by dsimp only; linarith,
      by dsimp only; linarith, by dsimp only; linarith⟩

theorem generateRandomPosition_inBounds (gs : ℝ) (g : ℕ → ℝ) (k : ℕ)
    (hgs : 12 ≤ gs) (hg : ∀ n, 0 ≤ g n ∧ g n < 1) :
    inBounds (computeBounds gs)
      (generateRandomPosition (computeBounds gs) g k).1 := by
  set b := computeBounds gs with hb
  obtain ⟨h00, h01⟩ := hg k
  obtain ⟨h10, h11⟩ := hg (k + 1)
  obtain ⟨h20, h21⟩ := hg (k + 2)
  have hXgap : b.minX + 6 ≤ b.maxX := by
    rw [hb]; unfold computeBounds; dsimp only; linarith
  have hYgap : b.minY + 6 ≤ b.maxY := by
    rw [hb]; unfold computeBounds; dsimp only; linarith
  have hZgap : b.minZ + 6 ≤ b.maxZ := by
    rw [hb]; unfold computeBounds; dsimp only; linarith
  obtain ⟨hux0, hux1⟩ :=
    uniformIn_mem b.minX b.maxX (g k) h00 h01 (by linarith)
  obtain ⟨huy0, huy1⟩ :=
    uniformIn_mem b.minY b.maxY (g (k + 1)) h10 h11 (by linarith)
  obtain ⟨huz0, huz1⟩ :=
    uniformIn_mem b.minZ b.maxZ (g (k + 2)) h20 h21 (by linarith)
  unfold generateRandomPosition
  unfold inBounds
  dsimp only
  exact ⟨hux0, hux1, huy0, huy1, huz0, huz1⟩

theorem generateFallbackPosition_inBounds (gs : ℝ) (g : ℕ → ℝ) (k : ℕ)
    (hgs : 12 ≤ gs) (hg : ∀ n, 0 ≤ g n ∧ g n < 1) :
    inBounds (computeBounds gs)
      (generateFallbackPosition (computeBounds gs) g k).1 := by
  set b := computeBounds gs with hb
  obtain ⟨h00, h01⟩ := hg k
  obtain ⟨h10, h11⟩ := hg (k + 1)
  obtain ⟨h20, h21⟩ := hg (k + 2)
  have hXgap : b.minX + 6 ≤ b.maxX := by
    rw [hb]; unfold computeBounds; dsimp only; linarith
  have hYgap : b.minY + 6 ≤ b.maxY := by
    rw [hb]; unfold computeBounds; dsimp only; linarith
  have hZgap : b.minZ + 6 ≤ b.maxZ := by
    rw [hb]; unfold computeBounds; dsimp only; linarith
  unfold generateFallbackPosition
  unfold inBounds
  dsimp only
  exact ⟨by linarith, by linarith, by linarith, by linarith, by linarith,
    by linarith⟩

theorem genZone_inBoundsWide (zone : ℕ) (gs : ℝ) (g : ℕ → ℝ) (k : ℕ)
    (hgs : 12 ≤ gs) (hg : ∀ n, 0 ≤ g n ∧ g n < 1) :
    inBoundsWide (computeBounds gs)
      (genZone zone gs (computeBounds gs) g k).1 := by
  unfold genZone
  split_ifs
  · exact inBounds_wide _ _ (generateCenterPosition_inBounds gs g k hgs hg)
  · exact generateCornerPosition_inBoundsWide gs g k hgs hg
  · exact inBounds_wide _ _ (generateEdgePosition_inBounds gs g k hgs hg)
  · exact inBounds_wide _ _ (generateRandomPosition_inBounds gs g k hgs hg)

theorem respawnLoop_inBoundsWide (zone : ℕ) (gs : ℝ) (last : Option Vec3)
    (g : ℕ → ℝ) (hgs : 12 ≤ gs) (hg : ∀ n, 0 ≤ g n ∧ g n < 1) :
    ∀ fuel k attempts, inBoundsWide (computeBounds gs)
      (respawnLoop fuel zone gs (computeBounds gs) last g k attempts).1 := by
  intro fuel
  induction fuel with
  | zero =>
    intro k attempts
    exact inBounds_wide _ _ (generateFallbackPosition_inBounds gs g k hgs hg)
  | succ fuel' ih =>
    intro k attempts
    rw [respawnLoop_succ]
    split_ifs with h1 h2
    · exact inBounds_wide _ _
        (generateFallbackPosition_inBounds gs g _ hgs hg)
    · exact ih _ _
    · exact genZone_inBoundsWide zone gs g k hgs hg

/-- C1 as amended: for any committed `respawn(gridSize)` call with
`gridSize ≥ 12` (the game uses 20 and 30) and all draws in `[0,1)`, the
committed food position lies within the computed bounds *inflated by 0.75
on the X and Z axes*; the Y coordinate always lies within `[minY, maxY]`
exactly.  The original claim fails only for the corner zone, whose jitter
`(random - 0.5) * 1.5` can push X and Z up to 0.75 outside
`[minX, maxX] × [minZ, maxZ]`; every other generator and the fallback stay
inside the uninflated bounds. -/
theorem C1_respawn_bounds_amended (f : Food) (gs : ℝ) (g : ℕ → ℝ)
    (hfi : f.isInitialized = true) (hgs : 12 ≤ gs)
    (hg : ∀ n, 0 ≤ g n ∧ g n < 1) :
    ((computeBounds gs).minX - 0.75 ≤ (f.respawn gs g).position.x ∧
     (f.respawn gs g).position.x ≤ (computeBounds gs).maxX + 0.75 ∧
     (computeBounds gs).minY ≤ (f.respawn gs g).position.y ∧
     (f.respawn gs g).position.y ≤ (computeBounds gs).maxY ∧
     (computeBounds gs).minZ - 0.75 ≤ (f.respawn gs g).position.z ∧
     (f.respawn gs g).position.z ≤ (computeBounds gs).maxZ + 0.75) := by
  rw [Food.respawn_eq f gs g hfi]
  exact respawnLoop_inBoundsWide (getWeightedRandomZone (g 0)) gs
    f.lastSpawnPosition g hgs hg 10 1 0

/-- C1, counterexample to the claim as stated: on grid 20 with first draw
0.4 (selecting the Corner zone) and all further draws 0 (corner index 0 =
`(minX, minY+1, minZ)`, jitter `(0-0.5)*1.5 = -0.75` on every axis), the
first candidate is committed at `(-7.75, 3.25, -7.75)`, whose x coordinate
is strictly below `minX = -7`. -/
theorem C1_respawn_bounds_counterexample :
    (let f : Food :=
      { position := ⟨0, 0, 0⟩, gridSize := 20, isInitialized := true,
        lastSpawnPosition := none }
     let g : ℕ → ℝ := fun n => if n = 0 then 0.4 else 0
     ((f.respawn 20 g).position = ⟨-7.75, 3.25, -7.75⟩ ∧
      (f.respawn 20 g).position.x < (computeBounds 20).minX ∧
      (∀ n, 0 ≤ g n ∧ g n < 1))) := by
  intro f g
  have hzone : getWeightedRandomZone (g 0) = 1 := by
    show getWeightedRandomZone (if (0 : ℕ) = 0 then (0.4 : ℝ) else 0) = 1
    unfold getWeightedRandomZone
    norm_num
  have hfloor : (Int.floor (g 1 * 12)).toNat = 0 := by
    show (Int.floor ((if (1 : ℕ) = 0 then (0.4 : ℝ) else 0) * 12)).toNat = 0
    norm_num
  have hgval : ∀ n, n ≠ 0 → g n = 0 := by
    intro n hn
    show (if n = 0 then (0.4 : ℝ) else 0) = 0
    rw [if_neg hn]
  have hcand : generateCornerPosition (computeBounds 20) g 1 =
      (⟨-7.75, 3.25, -7.75⟩, 5) := by
    unfold generateCornerPosition
    dsimp only
    rw [hfloor]
    unfold cornerList computeBounds
    norm_num [List.getD_cons_zero, Prod.mk.injEq, Vec3.mk.injEq,
      hgval 2 (by omega), hgval 3 (by omega), hgval 4 (by omega)]
  have hloop : respawnLoop 10 1 20 (computeBounds 20)
      f.lastSpawnPosition g 1 0 = (⟨-7.75, 3.25, -7.75⟩, 5) := by
    show respawnLoop 10 1 20 (computeBounds 20) none g 1 0 = _
    rw [show (10 : ℕ) = 9 + 1 from rfl, respawnLoop_succ]
    show (if (10 : ℕ) ≤ 0 + 1 then _
          else if isTooCloseToLastPosition none
              (genZone 1 20 (computeBounds 20) g 1).1 then _
          else genZone 1 20 (computeBounds 20) g 1) = _
    rw [if_neg (by norm_num),
      if_neg (show ¬ isTooCloseToLastPosition none
        (genZone 1 20 (computeBounds 20) g 1).1 from fun h => h)]
    show generateCornerPosition (computeBounds 20) g 1 = _
    exact hcand
  rw [Food.respawn_eq f 20 g rfl, hzone, hloop]
  refine ⟨rfl, ?_, ?_⟩
  · show (-7.75 : ℝ) < (computeBounds 20).minX
    unfold computeBounds
    norm_num
  · intro n
    show 0 ≤ (if n = 0 then (0.4 : ℝ) else 0) ∧
      (if n = 0 then (0.4 : ℝ) else 0) < 1
    split_ifs <;> norm_num

/-- Witness for the amended C1: grid 20, all draws 0 (zone 0, the Center
generator). -/
theorem C1_respawn_bounds_amended_witness :
    (let f : Food :=
      { position := ⟨0, 0, 0⟩, gridSize := 20, isInitialized := true,
        lastSpawnPosition := none }
     let g : ℕ → ℝ := fun _ => 0
     ((computeBounds 20).minX - 0.75 ≤ (f.respawn 20 g).position.x ∧
      (f.respawn 20 g).position.x ≤ (computeBounds 20).maxX + 0.75 ∧
      (computeBounds 20).minY ≤ (f.respawn 20 g).position.y ∧
      (f.respawn 20 g).position.y ≤ (computeBounds 20).maxY ∧
      (computeBounds 20).minZ - 0.75 ≤ (f.respawn 20 g).position.z ∧
      (f.respawn 20 g).position.z ≤ (computeBounds 20).maxZ + 0.75)) :=
  C1_respawn_bounds_amended _ 20 _ rfl (by norm_num)
    (fun n => ⟨le_refl 0, by norm_num⟩)

end

end Snake3D
